import Mathlib

/-!
Verification of the Chip-8 interpreter core (`core/opcode.go`, `core/cpu.go`,
`core/chip8.go`) against its natural-language specification.

The Go code is shallowly embedded: machine integers (`uint8`, `uint16`) become
`Nat` with an explicit `% 256` / `% 65536` wherever the Go arithmetic can wrap,
Go slices become `List Nat`, and the fatal exits (`log.Fatalf`, index-out-of-range
panics) become explicit error results.  Each definition transcribes the body of
the corresponding Go function; definitions whose Go source is absent from the
repository snapshot are modelled from the specification and say so in their
doc comment.
-/

namespace Chip8Defs

/-! ## Constants (from `core/chip8.go`, `core/cpu.go`, `core/display.go`) -/

def memorySize : Nat := 4096
def programEntryOffset : Nat := 0x200
def characterSpritesOffset : Nat := 0x100
def characterSpriteBytes : Nat := 5
def numRegisters : Nat := 16
def stackDepth : Nat := 16
def Chip8Width : Nat := 64
def Chip8Height : Nat := 32

/-! ## Opcode field extraction (from `core/opcode.go`)

`type Opcode uint16`.  The Go bodies use mask-and-shift; on natural numbers
`oc & 0x0FFF = oc % 4096`, `(oc & 0x0F00) >> 8 = oc / 256 % 16`, etc. -/

namespace Opcode

/-- `nnn` returns the 12 lowest bits of the opcode (`oc & 0x0FFF`). -/
def nnn (oc : Nat) : Nat := oc % 4096

/-- `nn` returns the 8 lowest bits of the opcode (`uint8(oc & 0x00FF)`). -/
def nn (oc : Nat) : Nat := oc % 256

/-- `n` returns the 4 lowest bits of the opcode (`uint8(oc & 0x000F)`). -/
def n (oc : Nat) : Nat := oc % 16

/-- `x` returns the lower 4 bits of the high byte (`uint8((oc & 0x0F00) >> 8)`). -/
def x (oc : Nat) : Nat := oc / 256 % 16

/-- `y` returns the upper 4 bits of the low byte (`uint8((oc & 0x00F0) >> 4)`). -/
def y (oc : Nat) : Nat := oc / 16 % 16

end Opcode

/-! ## CPU state (from `core/cpu.go`) -/

/-- The CPU record of `core/cpu.go`: `v` (16 general `uint8` registers),
`i` (`uint16` index register), `pc` (`uint16` program counter), `stack`
(16 `uint16` return addresses), `sp` (`uint8` stack pointer), the two
`uint8` timers and the current 2-byte opcode. -/
structure CPU where
  v : List Nat
  i : Nat
  pc : Nat
  stack : List Nat
  sp : Nat
  dt : Nat
  st : Nat
  opcode : Nat
deriving DecidableEq

/-- Reading register `v[k]` (in the Go code a plain slice index; every index
used by the instruction set is a nibble, hence in bounds of the 16-element
slice). -/
def CPU.getV (cpu : CPU) (k : Nat) : Nat := cpu.v.getD k 0

/-- Writing register `v[k] = val`. -/
def CPU.setV (cpu : CPU) (k val : Nat) : CPU := { cpu with v := cpu.v.set k val }

/-- `NewCPU` from `core/cpu.go`: cleared registers, `pc` at the program entry
offset. -/
def NewCPU : CPU :=
  { v := List.replicate numRegisters 0
    i := 0
    pc := programEntryOffset
    stack := List.replicate stackDepth 0
    sp := 0
    dt := 0
    st := 0
    opcode := 0 }

/-! ## Instruction implementations present in `core/cpu.go` -/

/-- `Exec00E0` — CLS: clear the display (`for i := range *disp { (*disp)[i] = 0 }`). -/
def Exec00E0 (disp : List Nat) : List Nat := disp.map (fun _ => 0)

/-- `Exec00EE` — RET: `cpu.sp--` (uint8, wraps) then `cpu.pc = cpu.stack[cpu.sp]`. -/
def Exec00EE (cpu : CPU) : CPU :=
  let sp1 := (cpu.sp + 255) % 256
  { cpu with sp := sp1, pc := cpu.stack.getD sp1 0 }

/-- `Exec1NNN` — JP addr: `cpu.pc = nnn`. -/
def Exec1NNN (cpu : CPU) : CPU :=
  { cpu with pc := Opcode.nnn cpu.opcode }

/-- `Exec2NNN` — CALL addr: `cpu.stack[cpu.sp] = cpu.pc; cpu.sp++; cpu.pc = nnn`. -/
def Exec2NNN (cpu : CPU) : CPU :=
  { cpu with
    stack := cpu.stack.set cpu.sp cpu.pc
    sp := (cpu.sp + 1) % 256
    pc := Opcode.nnn cpu.opcode }

/-- `Exec3XNN` — SE VX, byte: `if cpu.v[x] == nn { cpu.pc += 2 }`. -/
def Exec3XNN (cpu : CPU) : CPU :=
  if cpu.getV (Opcode.x cpu.opcode) = Opcode.nn cpu.opcode then
    { cpu with pc := (cpu.pc + 2) % 65536 }
  else cpu

/-- `Exec6XNN` — LD VX, byte: `cpu.v[x] = nn`. -/
def Exec6XNN (cpu : CPU) : CPU :=
  cpu.setV (Opcode.x cpu.opcode) (Opcode.nn cpu.opcode)

/-- `Exec7XNN` — ADD VX, byte: `cpu.v[x] += nn` (uint8, wraps). -/
def Exec7XNN (cpu : CPU) : CPU :=
  let x := Opcode.x cpu.opcode
  cpu.setV x ((cpu.getV x + Opcode.nn cpu.opcode) % 256)

/-- `Exec8XY0` — LD VX, VY: `cpu.v[x] = cpu.v[y]`. -/
def Exec8XY0 (cpu : CPU) : CPU :=
  cpu.setV (Opcode.x cpu.opcode) (cpu.getV (Opcode.y cpu.opcode))

/-- `Exec8XY2` — AND VX, VY: `cpu.v[x] = cpu.v[x] & cpu.v[y]`. -/
def Exec8XY2 (cpu : CPU) : CPU :=
  let x := Opcode.x cpu.opcode
  cpu.setV x (Nat.land (cpu.getV x) (cpu.getV (Opcode.y cpu.opcode)))

/-- `Exec8XY3` — XOR VX, VY: `cpu.v[x] = cpu.v[x] ^ cpu.v[y]`. -/
def Exec8XY3 (cpu : CPU) : CPU :=
  let x := Opcode.x cpu.opcode
  cpu.setV x (Nat.xor (cpu.getV x) (cpu.getV (Opcode.y cpu.opcode)))

/-- `Exec8XY6` — SHR: the Go body first sets `v[0xF] = 1` if `cpu.v[x] % 2 == 1`
else `0`, and then stores `cpu.v[y] >> 1` into `v[x]` (note: the carry test
reads `v[x]`, not `v[y]`, and runs before the store). -/
def Exec8XY6 (cpu : CPU) : CPU :=
  let x := Opcode.x cpu.opcode
  let y := Opcode.y cpu.opcode
  let vf : Nat := if cpu.getV x % 2 = 1 then 1 else 0
  let cpu1 := cpu.setV 0xF vf
  cpu1.setV x (cpu1.getV y / 2)

/-- `Exec8XYE` — SHL: the Go body first sets `v[0xF] = 1` if `cpu.v[x] >= 128`
else `0`, and then stores `cpu.v[y] << 1` (uint8, wraps) into `v[x]` (note:
the carry test reads `v[x]`, not `v[y]`, and runs before the store). -/
def Exec8XYE (cpu : CPU) : CPU :=
  let x := Opcode.x cpu.opcode
  let y := Opcode.y cpu.opcode
  let vf : Nat := if 128 ≤ cpu.getV x then 1 else 0
  let cpu1 := cpu.setV 0xF vf
  cpu1.setV x (cpu1.getV y * 2 % 256)

/-- `ExecANNN` — LD I, addr: `cpu.i = nnn`. -/
def ExecANNN (cpu : CPU) : CPU :=
  { cpu with i := Opcode.nnn cpu.opcode }

/-- `ExecFX1E` — ADD I, VX: `cpu.i = cpu.i + uint16(cpu.v[x])` (uint16, wraps). -/
def ExecFX1E (cpu : CPU) : CPU :=
  { cpu with i := (cpu.i + cpu.getV (Opcode.x cpu.opcode)) % 65536 }

/-! ## The draw instruction (from `core/cpu.go`, `ExecDXYN`) -/

/-- One iteration of the inner pixel loop of `ExecDXYN`.  `x`/`y` are the raw
opcode nibbles (the Go body indexes the display with `int(x)+int(ix)` and
`int(y)+int(iy)`); out-of-range pixels hit `continue`; otherwise the sprite bit
`(spriteMem[iy] >> (7-ix)) & 0x01` is XORed into the display cell and
`cpu.v[0xF]` is assigned (unconditionally, every iteration) the flip flag of
this pixel. -/
def drawPixel (memory : List Nat) (iy ix : Nat) (st : CPU × List Nat) : CPU × List Nat :=
  let cpu := st.1
  let display := st.2
  let xpos := Opcode.x cpu.opcode + ix
  let ypos := Opcode.y cpu.opcode + iy
  if Chip8Width ≤ xpos ∨ Chip8Height ≤ ypos then st
  else
    let oldpixel := display.getD (ypos * Chip8Width + xpos) 0
    let newpixel := memory.getD (cpu.i + iy) 0 / 2 ^ (7 - ix) % 2
    let display1 := display.set (ypos * Chip8Width + xpos) (Nat.xor oldpixel newpixel)
    let flipped : Nat := if oldpixel = 1 ∧ newpixel = 1 then 1 else 0
    (cpu.setV 0xF flipped, display1)

/-- `ExecDXYN` — DRW VX, VY, nibble: the Go double loop `for iy < n`,
`for ix < 8`, in order, threading the mutated CPU (its `v[0xF]`) and display. -/
def ExecDXYN (cpu : CPU) (memory display : List Nat) : CPU × List Nat :=
  (List.range (Opcode.n cpu.opcode)).foldl
    (fun st iy => (List.range 8).foldl (fun st2 ix => drawPixel memory iy ix st2) st)
    (cpu, display)

/-! ## Key wait (from `core/cpu.go`, `ExecFX0A`) -/

/-- The scan loop of `ExecFX0A`: `pressed = 0xFF; for i, keystate := range keys
{ if keystate == 1 { pressed = uint8(i); break } }`.  `base` carries the index
of the head of the remaining list. -/
def firstPressed : List Nat → Nat → Nat
  | [], _ => 0xFF
  | k :: rest, base => if k = 1 then base % 256 else firstPressed rest (base + 1)

/-- `ExecFX0A` — LD VX, key: if no key is pressed, block by decrementing the
program counter by 2 (uint16, wraps); otherwise store the first pressed key's
index into `v[x]`. -/
def ExecFX0A (cpu : CPU) (keys : List Nat) : CPU :=
  let pressed := firstPressed keys 0
  if pressed = 0xFF then { cpu with pc := (cpu.pc + 65534) % 65536 }
  else cpu.setV (Opcode.x cpu.opcode) pressed

/-! ## Block transfer (from `core/cpu.go`, `ExecFX55` / `ExecFX65`) -/

/-- `ExecFX55` — LD [I], VX: `for i := 0; i <= int(x); i++ {
(*memory)[int(cpu.i)+i] = cpu.v[i] }` then `cpu.i = cpu.i + uint16(x) + 1`
(uint16, wraps).  Returns the updated CPU and memory. -/
def ExecFX55 (cpu : CPU) (memory : List Nat) : CPU × List Nat :=
  let x := Opcode.x cpu.opcode
  let mem1 := (List.range (x + 1)).foldl
    (fun m k => m.set (cpu.i + k) (cpu.getV k)) memory
  ({ cpu with i := (cpu.i + x + 1) % 65536 }, mem1)

/-- `ExecFX65` — LD VX, [I]: `for i := 0; i <= int(x); i++ {
cpu.v[i] = (*memory)[int(cpu.i)+i] }` then `cpu.i = cpu.i + uint16(x) + 1`
(uint16, wraps). -/
def ExecFX65 (cpu : CPU) (memory : List Nat) : CPU :=
  let x := Opcode.x cpu.opcode
  let v1 := (List.range (x + 1)).foldl
    (fun vv k => vv.set k (memory.getD (cpu.i + k) 0)) cpu.v
  { cpu with v := v1, i := (cpu.i + x + 1) % 65536 }

/-! ## Instructions dispatched by `core/chip8.go` whose bodies are not in the
repository snapshot (only their call sites are).  Each is modelled from the
specification. -/

/-- Modelled from the spec: `Exec4XNN` (SNE VX, byte) — the body is missing
from the snapshot; conditional skip advances `PC` by an extra 2 when
`VX != NN`. -/
def Exec4XNN (cpu : CPU) : CPU :=
  if cpu.getV (Opcode.x cpu.opcode) = Opcode.nn cpu.opcode then cpu
  else { cpu with pc := (cpu.pc + 2) % 65536 }

/-- Modelled from the spec: `Exec5XY0` (SE VX, VY) — the body is missing from
the snapshot; conditional skip advances `PC` by an extra 2 when `VX == VY`. -/
def Exec5XY0 (cpu : CPU) : CPU :=
  if cpu.getV (Opcode.x cpu.opcode) = cpu.getV (Opcode.y cpu.opcode) then
    { cpu with pc := (cpu.pc + 2) % 65536 }
  else cpu

/-- Modelled from the spec: `Exec8XY1` (OR VX, VY) — the body is missing from
the snapshot; bitwise OR into `VX`. -/
def Exec8XY1 (cpu : CPU) : CPU :=
  let x := Opcode.x cpu.opcode
  cpu.setV x (Nat.lor (cpu.getV x) (cpu.getV (Opcode.y cpu.opcode)))

/-- Modelled from the spec: `Exec8XY4` (ADD VX, VY) — the body is missing from
the snapshot; 8-bit add, result wraps, `VF = 1` on overflow else `0`. -/
def Exec8XY4 (cpu : CPU) : CPU :=
  let x := Opcode.x cpu.opcode
  let sum := cpu.getV x + cpu.getV (Opcode.y cpu.opcode)
  let cpu1 := cpu.setV x (sum % 256)
  cpu1.setV 0xF (if 255 < sum then 1 else 0)

/-- Modelled from the spec: `Exec8XY5` (SUB VX, VY) — the body is missing from
the snapshot; `VX = VX - VY` wrapping, `VF` is the no-borrow flag (the spec
leaves the polarity open; `1` when no borrow is used here). -/
def Exec8XY5 (cpu : CPU) : CPU :=
  let x := Opcode.x cpu.opcode
  let vx := cpu.getV x
  let vy := cpu.getV (Opcode.y cpu.opcode)
  let cpu1 := cpu.setV x ((vx + 256 - vy) % 256)
  cpu1.setV 0xF (if vy ≤ vx then 1 else 0)

/-- Modelled from the spec: `Exec8XY7` (SUBN VX, VY) — the body is missing from
the snapshot; `VX = VY - VX` wrapping, `VF` is the no-borrow flag. -/
def Exec8XY7 (cpu : CPU) : CPU :=
  let x := Opcode.x cpu.opcode
  let vx := cpu.getV x
  let vy := cpu.getV (Opcode.y cpu.opcode)
  let cpu1 := cpu.setV x ((vy + 256 - vx) % 256)
  cpu1.setV 0xF (if vx ≤ vy then 1 else 0)

/-- Modelled from the spec: `Exec9XY0` (SNE VX, VY) — the body is missing from
the snapshot; conditional skip advances `PC` by an extra 2 when `VX != VY`. -/
def Exec9XY0 (cpu : CPU) : CPU :=
  if cpu.getV (Opcode.x cpu.opcode) = cpu.getV (Opcode.y cpu.opcode) then cpu
  else { cpu with pc := (cpu.pc + 2) % 65536 }

/-- Modelled from the spec: `ExecCXNN` (RND VX, byte) — the body is missing
from the snapshot; `VX = (random byte) & NN`.  The random byte is passed in as
`rnd`. -/
def ExecCXNN (cpu : CPU) (rnd : Nat) : CPU :=
  cpu.setV (Opcode.x cpu.opcode) (Nat.land (rnd % 256) (Opcode.nn cpu.opcode))

/-- Modelled from the spec: `ExecEX9E` (SKP VX) — the body is missing from the
snapshot; skip when the key indexed by `VX` reads pressed. -/
def ExecEX9E (cpu : CPU) (keys : List Nat) : CPU :=
  if keys.getD (cpu.getV (Opcode.x cpu.opcode)) 0 = 1 then
    { cpu with pc := (cpu.pc + 2) % 65536 }
  else cpu

/-- Modelled from the spec: `ExecEXA1` (SKNP VX) — the body is missing from the
snapshot; skip when the key indexed by `VX` does not read pressed. -/
def ExecEXA1 (cpu : CPU) (keys : List Nat) : CPU :=
  if keys.getD (cpu.getV (Opcode.x cpu.opcode)) 0 = 1 then cpu
  else { cpu with pc := (cpu.pc + 2) % 65536 }

/-- Modelled from the spec: `ExecFX07` (LD VX, DT) — the body is missing from
the snapshot; read the delay timer into `VX`. -/
def ExecFX07 (cpu : CPU) : CPU :=
  cpu.setV (Opcode.x cpu.opcode) cpu.dt

/-- Modelled from the spec: `ExecFX15` (LD DT, VX) — the body is missing from
the snapshot; set the delay timer from `VX`. -/
def ExecFX15 (cpu : CPU) : CPU :=
  { cpu with dt := cpu.getV (Opcode.x cpu.opcode) }

/-- Modelled from the spec: `ExecFX18` (LD ST, VX) — the body is missing from
the snapshot; set the sound timer from `VX`. -/
def ExecFX18 (cpu : CPU) : CPU :=
  { cpu with st := cpu.getV (Opcode.x cpu.opcode) }

/-- Modelled from the spec: `ExecFX29` (LD F, VX) — the body is missing from
the snapshot; set `I` to the built-in sprite address
`font_offset + digit * sprite_height`. -/
def ExecFX29 (cpu : CPU) : CPU :=
  { cpu with
    i := (characterSpritesOffset
           + cpu.getV (Opcode.x cpu.opcode) * characterSpriteBytes) % 65536 }

/-- Modelled from the spec: `ExecFX33` (LD B, VX) — the body is missing from
the snapshot; write the hundreds/tens/ones digits of `VX` to `[I, I+1, I+2]`. -/
def ExecFX33 (cpu : CPU) (memory : List Nat) : List Nat :=
  let vx := cpu.getV (Opcode.x cpu.opcode)
  ((memory.set cpu.i (vx / 100)).set (cpu.i + 1) (vx / 10 % 10)).set
    (cpu.i + 2) (vx % 10)

/-! ## The emulator state and dispatch (from `core/chip8.go`) -/

/-- The `Chip8` record of `core/chip8.go`, restricted to the interpreter state
(the renderer, font and debug bookkeeping are presentation concerns outside the
core). -/
structure Chip8 where
  mem : List Nat
  cpu : CPU
  display : List Nat
  keys : List Nat
deriving DecidableEq

/-- Outcome of dispatching one instruction: either the mutated machine, or a
fatal stop (`log.Fatalf` in the Go code) carrying the list of values the error
report surfaces. -/
inductive StepResult where
  | ok (c : Chip8) : StepResult
  | fatal (report : List Nat) : StepResult
deriving DecidableEq

/-- `invalidOpcode` from `core/chip8.go`:
`log.Fatalf("Invalid opcode: %#v\n", c.cpu.opcode)` — a fatal stop whose
report surfaces exactly the raw opcode value. -/
def invalidOpcode (c : Chip8) : StepResult :=
  .fatal [c.cpu.opcode]

/-- The instruction selected by the dispatch switch of `executeInstruction`. -/
inductive Instr where
  | i00E0 | i00EE | i1NNN | i2NNN | i3XNN | i4XNN | i5XY0 | i6XNN | i7XNN
  | i8XY0 | i8XY1 | i8XY2 | i8XY3 | i8XY4 | i8XY5 | i8XY6 | i8XY7 | i8XYE
  | i9XY0 | iANNN | iCXNN | iDXYN | iEX9E | iEXA1
  | iFX07 | iFX0A | iFX15 | iFX18 | iFX1E | iFX29 | iFX33 | iFX55 | iFX65
  | invalid
deriving DecidableEq

/-- The dispatch switch of `executeInstruction` in `core/chip8.go`:
`switch opcode & 0xF000` (here `oc / 4096 % 16` selects the same high nibble),
with the secondary selectors on `nnn`, `n` and `nn` transcribed case by case;
every `default` branch — including the whole missing `0xB000` family — selects
`invalid`. -/
def decode (oc : Nat) : Instr :=
  let hi := oc / 4096 % 16
  if hi = 0x0 then
    if oc % 4096 = 0x0E0 then .i00E0
    else if oc % 4096 = 0x0EE then .i00EE
    else .invalid
  else if hi = 0x1 then .i1NNN
  else if hi = 0x2 then .i2NNN
  else if hi = 0x3 then .i3XNN
  else if hi = 0x4 then .i4XNN
  else if hi = 0x5 then .i5XY0
  else if hi = 0x6 then .i6XNN
  else if hi = 0x7 then .i7XNN
  else if hi = 0x8 then
    if oc % 16 = 0x0 then .i8XY0
    else if oc % 16 = 0x1 then .i8XY1
    else if oc % 16 = 0x2 then .i8XY2
    else if oc % 16 = 0x3 then .i8XY3
    else if oc % 16 = 0x4 then .i8XY4
    else if oc % 16 = 0x5 then .i8XY5
    else if oc % 16 = 0x6 then .i8XY6
    else if oc % 16 = 0x7 then .i8XY7
    else if oc % 16 = 0xE then .i8XYE
    else .invalid
  else if hi = 0x9 then .i9XY0
  else if hi = 0xA then .iANNN
  else if hi = 0xC then .iCXNN
  else if hi = 0xD then .iDXYN
  else if hi = 0xE then
    if oc % 256 = 0x9E then .iEX9E
    else if oc % 256 = 0xA1 then .iEXA1
    else .invalid
  else if hi = 0xF then
    if oc % 256 = 0x07 then .iFX07
    else if oc % 256 = 0x0A then .iFX0A
    else if oc % 256 = 0x15 then .iFX15
    else if oc % 256 = 0x18 then .iFX18
    else if oc % 256 = 0x1E then .iFX1E
    else if oc % 256 = 0x29 then .iFX29
    else if oc % 256 = 0x33 then .iFX33
    else if oc % 256 = 0x55 then .iFX55
    else if oc % 256 = 0x65 then .iFX65
    else .invalid
  else .invalid

/-- `executeInstruction` from `core/chip8.go`: dispatch on the opcode loaded in
the CPU and run the selected instruction over the machine state; unmatched
opcodes reach `invalidOpcode`.  `rnd` is the random byte consumed only by
`CXNN`. -/
def executeInstruction (c : Chip8) (rnd : Nat) : StepResult :=
  match decode c.cpu.opcode with
  | .i00E0 => .ok { c with display := Exec00E0 c.display }
  | .i00EE => .ok { c with cpu := Exec00EE c.cpu }
  | .i1NNN => .ok { c with cpu := Exec1NNN c.cpu }
  | .i2NNN => .ok { c with cpu := Exec2NNN c.cpu }
  | .i3XNN => .ok { c with cpu := Exec3XNN c.cpu }
  | .i4XNN => .ok { c with cpu := Exec4XNN c.cpu }
  | .i5XY0 => .ok { c with cpu := Exec5XY0 c.cpu }
  | .i6XNN => .ok { c with cpu := Exec6XNN c.cpu }
  | .i7XNN => .ok { c with cpu := Exec7XNN c.cpu }
  | .i8XY0 => .ok { c with cpu := Exec8XY0 c.cpu }
  | .i8XY1 => .ok { c with cpu := Exec8XY1 c.cpu }
  | .i8XY2 => .ok { c with cpu := Exec8XY2 c.cpu }
  | .i8XY3 => .ok { c with cpu := Exec8XY3 c.cpu }
  | .i8XY4 => .ok { c with cpu := Exec8XY4 c.cpu }
  | .i8XY5 => .ok { c with cpu := Exec8XY5 c.cpu }
  | .i8XY6 => .ok { c with cpu := Exec8XY6 c.cpu }
  | .i8XY7 => .ok { c with cpu := Exec8XY7 c.cpu }
  | .i8XYE => .ok { c with cpu := Exec8XYE c.cpu }
  | .i9XY0 => .ok { c with cpu := Exec9XY0 c.cpu }
  | .iANNN => .ok { c with cpu := ExecANNN c.cpu }
  | .iCXNN => .ok { c with cpu := ExecCXNN c.cpu rnd }
  | .iDXYN =>
      let p := ExecDXYN c.cpu c.mem c.display
      .ok { c with cpu := p.1, display := p.2 }
  | .iEX9E => .ok { c with cpu := ExecEX9E c.cpu c.keys }
  | .iEXA1 => .ok { c with cpu := ExecEXA1 c.cpu c.keys }
  | .iFX07 => .ok { c with cpu := ExecFX07 c.cpu }
  | .iFX0A => .ok { c with cpu := ExecFX0A c.cpu c.keys }
  | .iFX15 => .ok { c with cpu := ExecFX15 c.cpu }
  | .iFX18 => .ok { c with cpu := ExecFX18 c.cpu }
  | .iFX1E => .ok { c with cpu := ExecFX1E c.cpu }
  | .iFX29 => .ok { c with cpu := ExecFX29 c.cpu }
  | .iFX33 => .ok { c with mem := ExecFX33 c.cpu c.mem }
  | .iFX55 =>
      let p := ExecFX55 c.cpu c.mem
      .ok { c with cpu := p.1, mem := p.2 }
  | .iFX65 => .ok { c with cpu := ExecFX65 c.cpu c.mem }
  | .invalid => invalidOpcode c

/-- `getNextInstruction` from `core/chip8.go`: compose the two bytes at
`[PC, PC+2)` big-endian into the CPU's opcode. -/
def getNextInstruction (c : Chip8) : Chip8 :=
  { c with cpu := { c.cpu with
      opcode := c.mem.getD c.cpu.pc 0 * 256 + c.mem.getD (c.cpu.pc + 1) 0 } }

/-- The `c.cpu.pc += 2` step of `cycle` (uint16, wraps). -/
def advancePC (c : Chip8) : Chip8 :=
  { c with cpu := { c.cpu with pc := (c.cpu.pc + 2) % 65536 } }

/-- `cycle` from `core/chip8.go`: fetch, advance `PC` by 2, execute. -/
def cycle (c : Chip8) (rnd : Nat) : StepResult :=
  executeInstruction (advancePC (getNextInstruction c)) rnd

/-! ## ROM loading (from `core/chip8.go`, `LoadRom`) -/

/-- The copy loop of `LoadRom`: `for i, data := range romdata {
c.mem[int(programEntryOffset)+i] = data }`.  A write past the end of the
memory slice is a Go index-out-of-range panic — a fatal stop; the error value
carries the memory as already mutated at the moment of the panic. -/
def loadRomLoop : List Nat → Nat → List Nat → Except (List Nat) (List Nat)
  | [], _, mem => .ok mem
  | d :: rest, idx, mem =>
    if idx < mem.length then loadRomLoop rest (idx + 1) (mem.set idx d)
    else .error mem

/-- `LoadRom`: copy the ROM bytes into memory starting at the program entry
offset (0x200).  The Go body performs no size check before or during the
copy. -/
def LoadRom (rom mem : List Nat) : Except (List Nat) (List Nat) :=
  loadRomLoop rom programEntryOffset mem

/-- The memory contents reached by a load, whether it completed or died
mid-copy. -/
def loadResultMem : Except (List Nat) (List Nat) → List Nat
  | .ok m => m
  | .error m => m

/-- Two consecutive driver cycles (the `Run` loop of `core/chip8.go` invokes
`cycle` repeatedly; a fatal stop ends the run). -/
def cycle2 (c : Chip8) (r1 r2 : Nat) : StepResult :=
  match cycle c r1 with
  | .ok c1 => cycle c1 r2
  | .fatal rep => .fatal rep

/-- The program counter of a step outcome, when the step completed. -/
def resultPC : StepResult → Option Nat
  | .ok c => some c.cpu.pc
  | .fatal _ => none

/-! ## Concrete machine states used to evaluate the code on specific inputs -/

/-- A CPU about to execute `DXYN` opcode `0xD001` (draw the 1-row sprite at
`I = 0` at nibble position (0,0)). -/
def cpuC1 : CPU :=
  { v := List.replicate 16 0, i := 0, pc := 514, stack := List.replicate 16 0
    sp := 0, dt := 0, st := 0, opcode := 0xD001 }

/-- Memory whose byte 0 is the sprite row `0x80` (leftmost pixel set). -/
def memC1 : List Nat := 128 :: List.replicate 4095 0

/-- A 64×32 display whose pixel (0,0) is set. -/
def dispC1 : List Nat := 1 :: List.replicate 2047 0

/-- A CPU about to execute `DXYN` opcode `0xD121` with `V1 = 20`, `V2 = 5`. -/
def cpuC2 : CPU :=
  { v := 0 :: 20 :: 5 :: List.replicate 13 0, i := 0, pc := 514
    stack := List.replicate 16 0, sp := 0, dt := 0, st := 0, opcode := 0xD121 }

/-- An all-clear 64×32 display. -/
def dispC2 : List Nat := List.replicate 2048 0

/-- A CPU about to execute `8XY6` opcode `0x8016` with `V0 = 1`, `V1 = 0`. -/
def cpuC3a : CPU :=
  { v := 1 :: 0 :: List.replicate 14 0, i := 0, pc := 514
    stack := List.replicate 16 0, sp := 0, dt := 0, st := 0, opcode := 0x8016 }

/-- A CPU about to execute `8XYE` opcode `0x801E` with `V0 = 128`, `V1 = 0`. -/
def cpuC3b : CPU :=
  { v := 128 :: 0 :: List.replicate 14 0, i := 0, pc := 514
    stack := List.replicate 16 0, sp := 0, dt := 0, st := 0, opcode := 0x801E }

/-- A machine that fetched the unrecognized opcode `0x0FFF` at address `0x200`
(so `PC` has already advanced to `0x202`). -/
def chipC4 : Chip8 :=
  { mem := List.replicate 4096 0
    cpu := { v := List.replicate 16 0, i := 0, pc := 514
             stack := List.replicate 16 0, sp := 0, dt := 0, st := 0
             opcode := 0x0FFF }
    display := List.replicate 2048 0
    keys := List.replicate 16 0 }

/-- A machine that fetched the unrecognized opcode `0xB123` (the whole `0xB`
family is absent from the dispatch switch) at address `0x200`. -/
def chipC4b : Chip8 :=
  { mem := List.replicate 4096 0
    cpu := { v := List.replicate 16 0, i := 0, pc := 514
             stack := List.replicate 16 0, sp := 0, dt := 0, st := 0
             opcode := 0xB123 }
    display := List.replicate 2048 0
    keys := List.replicate 16 0 }

/-- A 3585-byte ROM — one byte more than the 3584 bytes of program space. -/
def romC5 : List Nat := List.replicate 3585 7

/-- A fresh all-zero 4096-byte memory. -/
def memZero : List Nat := List.replicate 4096 0

/-- A machine whose memory holds `CALL 0x300` (`0x2300`) at `0x200` and
`RET` (`0x00EE`) at `0x300`, with the CPU about to fetch at `0x200`. -/
def chipC6 : Chip8 :=
  { mem := ((List.replicate 4096 0).set 512 35).set 769 238
    cpu := { v := List.replicate 16 0, i := 0, pc := 512
             stack := List.replicate 16 0, sp := 0, dt := 0, st := 0
             opcode := 0 }
    display := List.replicate 2048 0
    keys := List.replicate 16 0 }

/-- A CPU about to execute `FX55`/`FX65` opcode `0xF355` (`x = 3`) with
`V0..V3 = 11,22,33,44` and `I = 0x300`. -/
def cpuC7 : CPU :=
  { v := 11 :: 22 :: 33 :: 44 :: List.replicate 12 0, i := 768, pc := 514
    stack := List.replicate 16 0, sp := 0, dt := 0, st := 0, opcode := 0xF355 }

/-- A machine whose memory holds `SE V0, 0x00` (`0x3000`) at `0x200`, with the
CPU about to fetch at `0x200` and `V0 = 0`. -/
def chipC8 : Chip8 :=
  { mem := (List.replicate 4096 0).set 512 48
    cpu := { v := List.replicate 16 0, i := 0, pc := 512
             stack := List.replicate 16 0, sp := 0, dt := 0, st := 0
             opcode := 0 }
    display := List.replicate 2048 0
    keys := List.replicate 16 0 }

/-- A CPU about to execute `FX0A` opcode `0xF30A` (destination `V3`). -/
def cpuC9 : CPU :=
  { v := List.replicate 16 0, i := 0, pc := 514, stack := List.replicate 16 0
    sp := 0, dt := 0, st := 0, opcode := 0xF30A }

/-- An input state with no key pressed. -/
def keysNone : List Nat := List.replicate 16 0

/-- An input state whose only pressed key is key 5. -/
def keysFive : List Nat := (List.replicate 16 0).set 5 1

end Chip8Defs

namespace Chip8Defs

/-! ## Helper lemmas about list updates -/

theorem getD_set_self : ∀ (l : List Nat) (i a : Nat), i < l.length →
    (l.set i a).getD i 0 = a
  | [], i, a, h => absurd h (by simp)
  | _ :: _, 0, a, _ => rfl
  | _ :: tl, i + 1, a, h =>
    getD_set_self tl i a (by simpa using h)

theorem getD_set_ne : ∀ (l : List Nat) (i j a : Nat), i ≠ j →
    (l.set i a).getD j 0 = l.getD j 0
  | [], _, _, _, _ => rfl
  | _ :: _, 0, 0, a, h => absurd rfl h
  | _ :: _, 0, _ + 1, a, _ => rfl
  | _ :: _, _ + 1, 0, a, _ => rfl
  | _ :: tl, i + 1, j + 1, a, h =>
    getD_set_ne tl i j a (fun hij => h (by omega))

theorem foldl_set_length (g idx : Nat → Nat) :
    ∀ (n : Nat) (l : List Nat),
      ((List.range n).foldl (fun m k => m.set (idx k) (g k)) l).length = l.length := by
  intro n
  induction n with
  | zero => intro l; rfl
  | succ n ih =>
    intro l
    rw [List.range_succ, List.foldl_append]
    simp [List.length_set, ih l]

theorem foldl_set_getD (g idx : Nat → Nat)
    (hmono : ∀ a b : Nat, a < b → idx a < idx b) :
    ∀ (n : Nat) (l : List Nat), (∀ k, k < n → idx k < l.length) →
      ∀ j, j < n →
        ((List.range n).foldl (fun m k => m.set (idx k) (g k)) l).getD (idx j) 0 = g j := by
  intro n
  induction n with
  | zero => intro l _ j hj; exact absurd hj (by omega)
  | succ n ih =>
    intro l hk j hj
    rw [List.range_succ, List.foldl_append]
    simp only [List.foldl_cons, List.foldl_nil]
    rcases Nat.lt_or_ge j n with hlt | hge
    · rw [getD_set_ne _ _ _ _ (Nat.ne_of_gt (hmono j n hlt))]
      exact ih l (fun k hkn => hk k (by omega)) j hlt
    · have hjn : j = n := by omega
      subst hjn
      rw [getD_set_self]
      rw [foldl_set_length]
      exact hk j (by omega)

/-! ## Helper lemmas about the key-scan loop -/

theorem firstPressed_none : ∀ (ks : List Nat) (base : Nat),
    (∀ a ∈ ks, a ≠ 1) → firstPressed ks base = 0xFF
  | [], _, _ => rfl
  | k :: rest, base, h => by
    have hk : k ≠ 1 := h k (by simp)
    simp only [firstPressed, if_neg hk]
    exact firstPressed_none rest (base + 1) (fun a ha => h a (by simp [ha]))

theorem firstPressed_found : ∀ (ks : List Nat) (base j : Nat),
    j < ks.length → ks.getD j 0 = 1 → (∀ i, i < j → ks.getD i 0 ≠ 1) →
    firstPressed ks base = (base + j) % 256
  | [], _, j, hj, _, _ => absurd hj (by simp)
  | k :: rest, base, j, hj, hget, hmin => by
    by_cases hk : k = 1
    · have hj0 : j = 0 := by
        by_contra hne
        exact hmin 0 (by omega) (by simpa using hk)
      subst hj0
      simp [firstPressed, hk]
    · have hj0 : j ≠ 0 := by
        intro h0; subst h0; exact hk (by simpa using hget)
      obtain ⟨j', rfl⟩ := Nat.exists_eq_succ_of_ne_zero hj0
      simp only [firstPressed, if_neg hk]
      have := firstPressed_found rest (base + 1) j' (by simpa using hj)
        (by simpa using hget)
        (fun i hi => by simpa using hmin (i + 1) (by omega))
      rw [this]
      congr 1
      omega

/-! ## Helper lemmas about the ROM copy loop -/

theorem loadRomLoop_error : ∀ (rom : List Nat) (idx : Nat) (mem : List Nat),
    idx ≤ mem.length → mem.length < idx + rom.length →
    ∃ m', loadRomLoop rom idx mem = .error m'
  | [], idx, mem, hle, hlt => absurd hlt (by simp; omega)
  | d :: rest, idx, mem, hle, hlt => by
    by_cases h : idx < mem.length
    · simp only [loadRomLoop, if_pos h]
      exact loadRomLoop_error rest (idx + 1) (mem.set idx d)
        (by simp [List.length_set]; omega)
        (by simp only [List.length_set, List.length_cons] at hlt ⊢; omega)
    · exact ⟨mem, by simp only [loadRomLoop, if_neg h]⟩

theorem loadRomLoop_preserve : ∀ (rom : List Nat) (idx : Nat) (mem : List Nat)
    (j : Nat), j < idx →
    (loadResultMem (loadRomLoop rom idx mem)).getD j 0 = mem.getD j 0
  | [], _, _, _, _ => rfl
  | d :: rest, idx, mem, j, hj => by
    by_cases h : idx < mem.length
    · simp only [loadRomLoop, if_pos h]
      rw [loadRomLoop_preserve rest (idx + 1) (mem.set idx d) j (by omega)]
      exact getD_set_ne _ _ _ _ (by omega)
    · simp only [loadRomLoop, if_neg h, loadResultMem]

theorem loadRomLoop_firstWrite (rest : List Nat) (idx : Nat) (mem : List Nat)
    (d : Nat) (h : idx < mem.length) :
    (loadResultMem (loadRomLoop (d :: rest) idx mem)).getD idx 0 = d := by
  simp only [loadRomLoop, if_pos h]
  rw [loadRomLoop_preserve rest (idx + 1) (mem.set idx d) idx (by omega)]
  exact getD_set_self _ _ _ h

/-! ## Helper lemmas for symbolic execution of `cycle` -/

theorem cycle_unfold (c : Chip8) (r : Nat) :
    cycle c r = executeInstruction
      { c with cpu := { c.cpu with
          opcode := c.mem.getD c.cpu.pc 0 * 256 + c.mem.getD (c.cpu.pc + 1) 0
          pc := (c.cpu.pc + 2) % 65536 } } r := rfl

theorem exec_i2NNN_eq (c : Chip8) (r : Nat)
    (h : decode c.cpu.opcode = .i2NNN) :
    executeInstruction c r = .ok { c with cpu := Exec2NNN c.cpu } := by
  unfold executeInstruction
  rw [h]

theorem exec_i00EE_eq (c : Chip8) (r : Nat)
    (h : decode c.cpu.opcode = .i00EE) :
    executeInstruction c r = .ok { c with cpu := Exec00EE c.cpu } := by
  unfold executeInstruction
  rw [h]

theorem exec_i3XNN_eq (c : Chip8) (r : Nat)
    (h : decode c.cpu.opcode = .i3XNN) :
    executeInstruction c r = .ok { c with cpu := Exec3XNN c.cpu } := by
  unfold executeInstruction
  rw [h]

theorem decode_call (oc : Nat) (h : oc / 4096 % 16 = 2) :
    decode oc = .i2NNN := by
  unfold decode
  simp [h]

theorem decode_se (oc : Nat) (h : oc / 4096 % 16 = 3) :
    decode oc = .i3XNN := by
  unfold decode
  simp [h]

theorem cycle2_ok (c c1 : Chip8) (r1 r2 : Nat) (h : cycle c r1 = .ok c1) :
    cycle2 c r1 r2 = cycle c1 r2 := by
  unfold cycle2
  rw [h]

/-! ## Helper lemmas for the block-transfer instructions -/

theorem fx55_getD (cpu : CPU) (mem : List Nat) (hm : mem.length = 4096)
    (hb : cpu.i + Opcode.x cpu.opcode < 4096) (j : Nat)
    (hj : j ≤ Opcode.x cpu.opcode) :
    (ExecFX55 cpu mem).2.getD (cpu.i + j) 0 = cpu.getV j := by
  have h := foldl_set_getD cpu.getV (fun k => cpu.i + k)
    (fun a b hab => by show cpu.i + a < cpu.i + b; omega)
    (Opcode.x cpu.opcode + 1) mem
    (fun k hk => by show cpu.i + k < mem.length; omega) j (by omega)
  simpa [ExecFX55] using h

theorem fx65_getV (cpu : CPU) (mem : List Nat) (hv : cpu.v.length = 16)
    (j : Nat) (hj : j ≤ Opcode.x cpu.opcode) :
    (ExecFX65 cpu mem).getV j = mem.getD (cpu.i + j) 0 := by
  have hx : Opcode.x cpu.opcode < 16 := Nat.mod_lt _ (by norm_num)
  have h := foldl_set_getD (fun k => mem.getD (cpu.i + k) 0) (fun k => k)
    (fun a b hab => hab) (Opcode.x cpu.opcode + 1) cpu.v
    (fun k hk => by show k < cpu.v.length; omega) j (by omega)
  simpa [ExecFX65, CPU.getV] using h

/-! ## Theorems for the opcode extraction ranges (claim C10 support) -/

theorem opcodeX_lt (oc : Nat) : Opcode.x oc < 16 :=
  Nat.mod_lt _ (by norm_num)

theorem opcodeY_lt (oc : Nat) : Opcode.y oc < 16 :=
  Nat.mod_lt _ (by norm_num)

/-! ## Claim C10 -/

/-- C10: for every 16-bit opcode value, the extraction functions `x()` and
`y()` return values in the range 0 to 15, and hence every `v[x]` / `v[y]`
access is within bounds of the 16-element register slice that `NewCPU`
constructs. -/
theorem c10_register_index_bounds (oc : Nat) :
    Opcode.x oc < 16 ∧ Opcode.y oc < 16 ∧
    Opcode.x oc < NewCPU.v.length ∧ Opcode.y oc < NewCPU.v.length := by
  have hlen : NewCPU.v.length = 16 := by
    simp [NewCPU, numRegisters]
  exact ⟨opcodeX_lt oc, opcodeY_lt oc, by rw [hlen]; exact opcodeX_lt oc,
    by rw [hlen]; exact opcodeY_lt oc⟩

/-! ## Claim C1 -/

/-- C1: evaluation of `ExecDXYN` refuting the cumulative-collision claim.
Drawing the one-row sprite `0x80` at (0,0) over a display whose pixel (0,0)
is set flips that pixel from set to unset (third conjunct: it was 1 before;
second conjunct: it is 0 after), yet `VF` ends at 0 (first conjunct), because
the code overwrites `v[0xF]` with each pixel's flip flag and the last pixel
processed did not collide.  The claim (and the code's own comment) requires
`VF = 1` here. -/
theorem c1_dxyn_vf_last_pixel :
    (ExecDXYN cpuC1 memC1 dispC1).1.getV 15 = 0 ∧
    (ExecDXYN cpuC1 memC1 dispC1).2.getD 0 0 = 0 ∧
    dispC1.getD 0 0 = 1 := by
  decide

/-! ## Claim C2 -/

/-- C2: evaluation of `ExecDXYN` refuting the draw-at-(VX,VY) claim.  With
`V1 = 20`, `V2 = 5` and opcode `0xD121`, the sprite pixel lands at the raw
nibble position (1,2) — display cell `2*64+1` — and nothing is drawn at the
claimed register position (20,5) — display cell `5*64+20`. -/
theorem c2_dxyn_draws_at_nibbles :
    (ExecDXYN cpuC2 memC1 dispC2).2.getD (2 * 64 + 1) 0 = 1 ∧
    (ExecDXYN cpuC2 memC1 dispC2).2.getD (5 * 64 + 20) 0 = 0 ∧
    cpuC2.getV 1 = 20 ∧ cpuC2.getV 2 = 5 := by
  decide

/-! ## Claim C3 -/

/-- C3: evaluation of the shift instructions refuting the VF-from-VY claim.
`8XY6` with `V0 = 1`, `V1 = 0` stores `V1 >> 1 = 0` into `V0` (second
conjunct, the shift source is indeed `VY`) but sets `VF = 1` from `V0`'s low
bit (first conjunct) where the old `V1`'s low bit is 0.  `8XYE` with
`V0 = 128`, `V1 = 0` likewise stores `V1 << 1 = 0` but sets `VF = 1` from
`V0`'s high bit where the old `V1`'s high bit is 0. -/
theorem c3_shift_flag_reads_vx :
    (Exec8XY6 cpuC3a).getV 15 = 1 ∧ (Exec8XY6 cpuC3a).getV 0 = 0 ∧
    (Exec8XYE cpuC3b).getV 15 = 1 ∧ (Exec8XYE cpuC3b).getV 0 = 0 := by
  decide

/-! ## Claim C4 -/

/-- C4 counterexample: executing the unrecognized opcode `0x0FFF` fetched at
address `0x200` (so the claim's failing program counter is `0x200`, and the
post-fetch `PC` is `0x202`) halts fatally with a report surfacing only the
raw opcode value `0x0FFF`; neither `0x200` nor `0x202` occurs in the report,
contradicting the claim that the report contains the failing program
counter. -/
theorem c4_report_lacks_pc :
    executeInstruction chipC4 0 = .fatal [0x0FFF] ∧
    (0x200 : Nat) ∉ [(0x0FFF : Nat)] ∧ (0x202 : Nat) ∉ [(0x0FFF : Nat)] := by
  decide

/-- C4 (amended): for every machine state whose loaded opcode matches no known
instruction family or sub-selector, execution halts fatally and the surfaced
report contains exactly the raw 16-bit opcode value — not the program
counter. -/
theorem c4_invalid_opcode_fatal (c : Chip8) (rnd : Nat)
    (h : decode c.cpu.opcode = .invalid) :
    executeInstruction c rnd = .fatal [c.cpu.opcode] := by
  unfold executeInstruction
  rw [h]
  rfl

/-- C4 witness: the amended theorem applied to the machine that fetched
`0xB123` (the dispatch switch has no `0xB000` family). -/
theorem c4_invalid_opcode_fatal_witness :
    executeInstruction chipC4b 0 = .fatal [0xB123] :=
  c4_invalid_opcode_fatal chipC4b 0 (by decide)

/-! ## Claim C5 -/

/-- C5: a ROM longer than `memory_size - program_entry_offset = 3584` bytes is
not rejected before any byte is written: the copy loop of `LoadRom` dies on an
out-of-range write (first conjunct — the load ends in the fatal `error` case),
but only after mutating memory — at the moment of the panic the byte at the
program entry offset `0x200` already holds the ROM's first byte (second
conjunct), contradicting the claim that memory is left unchanged. -/
theorem c5_loadrom_overflow (rom mem : List Nat)
    (hm : mem.length = 4096) (hr : 3584 < rom.length) :
    LoadRom rom mem = .error (loadResultMem (LoadRom rom mem)) ∧
    (loadResultMem (LoadRom rom mem)).getD 512 0 = rom.getD 0 0 := by
  obtain ⟨m', he⟩ := loadRomLoop_error rom 512 mem (by omega) (by omega)
  have he' : LoadRom rom mem = .error m' := he
  constructor
  · rw [he']
    rfl
  · cases rom with
    | nil => simp at hr
    | cons d rest =>
      have h := loadRomLoop_firstWrite rest 512 mem d (by omega)
      exact h

/-- C5 witness: the theorem applied to a 3585-byte ROM of `0x07` bytes and a
fresh all-zero 4096-byte memory: the load dies mid-copy and byte `0x200` of
the memory it leaves behind holds `7`, not its original `0`. -/
theorem c5_loadrom_overflow_witness :
    LoadRom romC5 memZero = .error (loadResultMem (LoadRom romC5 memZero)) ∧
    (loadResultMem (LoadRom romC5 memZero)).getD 512 0 = romC5.getD 0 0 :=
  c5_loadrom_overflow romC5 memZero
    (by simp only [memZero, List.length_replicate])
    (by simp only [romC5, List.length_replicate]; omega)

/-! ## Claim C7 -/

/-- C7: for every CPU state with `x = Opcode.x opcode ≤ 15` (always true of a
nibble) and `I + x` inside memory bounds, `FX55` writes `V0..Vx` to memory
`[I, I+x]`, `FX65` loads memory `[I, I+x]` into `V0..Vx`, both leave `I` equal
to its prior value plus `x+1`, and a block store followed by a block load from
the same initial `I` into zeroed registers restores the original register
values. -/
theorem c7_block_transfer (cpu : CPU) (mem : List Nat)
    (hm : mem.length = 4096) (hv : cpu.v.length = 16)
    (hb : cpu.i + Opcode.x cpu.opcode < 4096) :
    (∀ j, j ≤ Opcode.x cpu.opcode →
      (ExecFX55 cpu mem).2.getD (cpu.i + j) 0 = cpu.getV j) ∧
    (ExecFX55 cpu mem).1.i = cpu.i + Opcode.x cpu.opcode + 1 ∧
    (∀ j, j ≤ Opcode.x cpu.opcode →
      (ExecFX65 cpu mem).getV j = mem.getD (cpu.i + j) 0) ∧
    (ExecFX65 cpu mem).i = cpu.i + Opcode.x cpu.opcode + 1 ∧
    (∀ j, j ≤ Opcode.x cpu.opcode →
      (ExecFX65 { cpu with v := List.replicate 16 0 } (ExecFX55 cpu mem).2).getV j
        = cpu.getV j) := by
  have hi : (cpu.i + Opcode.x cpu.opcode + 1) % 65536
      = cpu.i + Opcode.x cpu.opcode + 1 := Nat.mod_eq_of_lt (by omega)
  refine ⟨fun j hj => fx55_getD cpu mem hm hb j hj, ?_, ?_, ?_, ?_⟩
  · simp [ExecFX55, hi]
  · exact fun j hj => fx65_getV cpu mem hv j hj
  · simp [ExecFX65, hi]
  · intro j hj
    have h1 := fx65_getV { cpu with v := List.replicate 16 0 }
      (ExecFX55 cpu mem).2 (by simp) j hj
    rw [h1]
    exact fx55_getD cpu mem hm hb j hj

/-- C7 witness: the theorem applied with `V0..V3 = 11,22,33,44`, `I = 0x300`
and opcode `0xF355`, specialised to register 2 for the store, register 1 for
the load and the round trip, and checking `I = 0x300 + 4` after both
transfers. -/
theorem c7_block_transfer_witness :
    (ExecFX55 cpuC7 memZero).2.getD (768 + 2) 0 = cpuC7.getV 2 ∧
    (ExecFX55 cpuC7 memZero).1.i = 768 + 3 + 1 ∧
    (ExecFX65 cpuC7 memZero).getV 1 = memZero.getD (768 + 1) 0 ∧
    (ExecFX65 cpuC7 memZero).i = 768 + 3 + 1 ∧
    (ExecFX65 { cpuC7 with v := List.replicate 16 0 }
        (ExecFX55 cpuC7 memZero).2).getV 1 = cpuC7.getV 1 := by
  have h := c7_block_transfer cpuC7 memZero
    (by simp only [memZero, List.length_replicate]) (by decide) (by decide)
  exact ⟨h.1 2 (by decide), h.2.1, h.2.2.1 1 (by decide), h.2.2.2.1,
    h.2.2.2.2 1 (by decide)⟩

/-! ## Claim C9 -/

/-- C9: for every CPU state and 16-entry input state, `FX0A` either — when no
key reads pressed — decrements the program counter by 2 and leaves every
general register unchanged, or — when some key reads pressed — stores the
lowest-indexed pressed key's code into `VX` without touching the program
counter. -/
theorem c9_wait_key (cpu : CPU) (keys : List Nat) (hlen : keys.length = 16) :
    ((∀ a ∈ keys, a ≠ 1) → 2 ≤ cpu.pc → cpu.pc < 65536 →
      (ExecFX0A cpu keys).pc = cpu.pc - 2 ∧ (ExecFX0A cpu keys).v = cpu.v) ∧
    (∀ j, j < 16 → keys.getD j 0 = 1 → (∀ i, i < j → keys.getD i 0 ≠ 1) →
      ExecFX0A cpu keys = cpu.setV (Opcode.x cpu.opcode) j ∧
      (ExecFX0A cpu keys).pc = cpu.pc ∧
      (cpu.v.length = 16 →
        (ExecFX0A cpu keys).getV (Opcode.x cpu.opcode) = j)) := by
  constructor
  · intro hnone h2 h65
    have hfp : firstPressed keys 0 = 0xFF := firstPressed_none keys 0 hnone
    have hpc : (cpu.pc + 65534) % 65536 = cpu.pc - 2 := by omega
    constructor
    · simp [ExecFX0A, hfp, hpc]
    · simp [ExecFX0A, hfp]
  · intro j hj hget hmin
    have hfp : firstPressed keys 0 = j := by
      have h := firstPressed_found keys 0 j (by omega) hget hmin
      rw [h]
      omega
    have hne : j ≠ 0xFF := by omega
    have hres : ExecFX0A cpu keys = cpu.setV (Opcode.x cpu.opcode) j := by
      simp [ExecFX0A, hfp, hne]
    refine ⟨hres, ?_, ?_⟩
    · rw [hres]
      rfl
    · intro hv
      rw [hres]
      exact getD_set_self _ _ _ (by rw [hv]; exact opcodeX_lt cpu.opcode)

/-- C9 witness: the theorem applied to a CPU about to execute `0xF30A`
(destination `V3`) at `PC = 0x202`, once with no key pressed (the program
counter backs up to `0x200` and the registers survive untouched) and once with
exactly key 5 pressed (the CPU becomes `setV 3 5`, its `PC` untouched, and
`V3` reads back 5). -/
theorem c9_wait_key_witness :
    (ExecFX0A cpuC9 keysNone).pc = 512 ∧
    (ExecFX0A cpuC9 keysNone).v = cpuC9.v ∧
    ExecFX0A cpuC9 keysFive = cpuC9.setV 3 5 ∧
    (ExecFX0A cpuC9 keysFive).pc = cpuC9.pc ∧
    (ExecFX0A cpuC9 keysFive).getV 3 = 5 := by
  have h1 := (c9_wait_key cpuC9 keysNone (by decide)).1 (by decide)
    (by decide) (by decide)
  have h2 := (c9_wait_key cpuC9 keysFive (by decide)).2 5 (by decide)
    (by decide) (by decide)
  exact ⟨h1.1, h1.2, h2.1, h2.2.1, h2.2.2 (by decide)⟩

/-! ## Claim C8 -/

/-- C8: a full cycle executing `3XNN` fetched at address `A` (the two memory
bytes at `A` spell `0x3(x0)(nn0)`) leaves the program counter at `A + 4` when
`V(x0) = nn0` and at `A + 2` otherwise. -/
theorem c8_skip_if_equal (c : Chip8) (A x0 nn0 r : Nat)
    (hpc : c.cpu.pc = A) (hA : A + 2 ≤ 4096) (hx : x0 < 16) (hnn : nn0 < 256)
    (hb1 : c.mem.getD A 0 = 48 + x0) (hb2 : c.mem.getD (A + 1) 0 = nn0) :
    resultPC (cycle c r) = some (if c.cpu.getV x0 = nn0 then A + 4 else A + 2) := by
  rw [cycle_unfold, hpc, hb1, hb2]
  have hop : (48 + x0) * 256 + nn0 = 12288 + (x0 * 256 + nn0) := by ring
  rw [hop]
  have hdec : decode (12288 + (x0 * 256 + nn0)) = Instr.i3XNN :=
    decode_se _ (by omega)
  have hxx : Opcode.x (12288 + (x0 * 256 + nn0)) = x0 := by
    unfold Opcode.x
    omega
  have hnn' : Opcode.nn (12288 + (x0 * 256 + nn0)) = nn0 := by
    unfold Opcode.nn
    omega
  have h2 : (A + 2) % 65536 = A + 2 := Nat.mod_eq_of_lt (by omega)
  have h4 : (A + 2 + 2) % 65536 = A + 4 := by omega
  simp [executeInstruction, hdec, Exec3XNN, resultPC, hxx, hnn', h2, h4,
    CPU.getV, apply_ite CPU.pc]

set_option maxRecDepth 40000 in
/-- C8 witness: the theorem applied to a machine whose memory spells
`SE V0, 0x00` at `0x200` with `V0 = 0`: the condition holds, and the cycle
leaves the program counter at `0x200 + 4`. -/
theorem c8_skip_if_equal_witness :
    resultPC (cycle chipC8 0)
      = some (if chipC8.cpu.getV 0 = 0 then 512 + 4 else 512 + 2) :=
  c8_skip_if_equal chipC8 512 0 0 0 (by decide) (by decide) (by decide)
    (by decide) (by decide) (by decide)

/-! ## Claim C6 -/

/-- C6: with the stack pointer at least one slot below the stack depth, a full
cycle for `CALL nnn` (`2NNN`) fetched at address `A` followed by a full cycle
for `RET` (`00EE`) fetched at `nnn` leaves the program counter at `A + 2`, the
address immediately following the call instruction. -/
theorem c6_call_ret (c : Chip8) (A nnn r1 r2 : Nat)
    (hpc : c.cpu.pc = A) (hA : A + 2 ≤ 4096)
    (hn : nnn < 4096) (hn2 : nnn + 2 ≤ 4096)
    (hb1 : c.mem.getD A 0 = 32 + nnn / 256)
    (hb2 : c.mem.getD (A + 1) 0 = nnn % 256)
    (hb3 : c.mem.getD nnn 0 = 0) (hb4 : c.mem.getD (nnn + 1) 0 = 238)
    (hsp : c.cpu.sp + 1 ≤ stackDepth) (hst : c.cpu.stack.length = stackDepth) :
    resultPC (cycle2 c r1 r2) = some (A + 2) := by
  have hsp' : c.cpu.sp ≤ 15 := by
    simp only [stackDepth] at hsp
    omega
  have hst' : c.cpu.stack.length = 16 := by
    simpa [stackDepth] using hst
  have e1 : cycle c r1 = .ok { c with cpu := { c.cpu with
      opcode := 8192 + nnn
      pc := nnn
      stack := c.cpu.stack.set c.cpu.sp (A + 2)
      sp := c.cpu.sp + 1 } } := by
    rw [cycle_unfold, hpc, hb1, hb2]
    have hop : (32 + nnn / 256) * 256 + nnn % 256 = 8192 + nnn := by omega
    rw [hop]
    have hdec : decode (8192 + nnn) = Instr.i2NNN := decode_call _ (by omega)
    have h2 : (A + 2) % 65536 = A + 2 := Nat.mod_eq_of_lt (by omega)
    have h3 : Opcode.nnn (8192 + nnn) = nnn := by
      unfold Opcode.nnn
      omega
    have h4 : (c.cpu.sp + 1) % 256 = c.cpu.sp + 1 := Nat.mod_eq_of_lt (by omega)
    simp [executeInstruction, hdec, Exec2NNN, h2, h3, h4]
  rw [cycle2_ok c _ r1 r2 e1]
  rw [cycle_unfold]
  have hdec2 : decode 238 = Instr.i00EE := by decide
  have h5 : (nnn + 2) % 65536 = nnn + 2 := Nat.mod_eq_of_lt (by omega)
  have h6 : (c.cpu.sp + 1 + 255) % 256 = c.cpu.sp := by omega
  have h7 : (c.cpu.stack.set c.cpu.sp (A + 2)).getD c.cpu.sp 0 = A + 2 :=
    getD_set_self _ _ _ (by omega)
  rw [List.getD_eq_getElem?_getD] at hb3 hb4 h7
  simp [executeInstruction, hb3, hb4, hdec2, Exec00EE, resultPC, h5, h6, h7]

set_option maxRecDepth 40000 in
/-- C6 witness: the theorem applied to a machine whose memory spells
`CALL 0x300` at `0x200` and `RET` at `0x300`: two cycles later the program
counter reads `0x202`. -/
theorem c6_call_ret_witness :
    resultPC (cycle2 chipC6 0 0) = some (512 + 2) :=
  c6_call_ret chipC6 512 768 0 0 (by decide) (by decide) (by decide)
    (by decide) (by decide) (by decide) (by decide) (by decide) (by decide)
    (by decide)

end Chip8Defs
